import Mathlib

/-!
Shallow embedding of the chemz tag/attribute layer: `src/chemz/base.py`
(abstract `Track` with `__slots__`, `import_from_dict`) and
`src/chemz/flac.py` (`FLACTrack`: attribute map, `read`/`save`,
`delete_tag`, cover subsystem, `__setattr__`/`__getattr__` discipline).

External collaborators are modelled explicitly:
* the mutagen FLAC tag store as an in-memory/on-disk pair of tag maps plus a
  picture list, with a fault schedule for the outcomes of successive
  `save()` calls (each of which performs real file I/O that can raise);
* PIL images as a record of width/height/format/exif, with `Image.thumbnail`
  translated from PIL's `preserve_aspect_ratio` logic (aspect-fit, never
  enlarging, `round_aspect` with floor/ceil choice by closeness to the
  aspect ratio);
* the filesystem as a partial map from rendered path strings to file bytes.

Python slot semantics: a slot attribute is *unset* until first assignment
(`hasattr` is false, `getattr` raises); a slot can hold `None`, which is a
value, distinct from being unset.
-/

namespace Chemz

/-- Error taxonomy: the exception classes imported by `flac.py` from
`chemz.exceptions` plus the built-in Python exceptions the code raises, and
the I/O failure an underlying store/file operation can raise. -/
inductive Err where
  | attributeError (msg : String)
  | keyError (msg : String)
  | typeError
  | ioError
  | fileNotFoundError
  | unidentifiedImageError
  | wrongFLACAttributeError
  | wrongPictureFormatError (msg : String)
  | noCoverFoundError (msg : String)
deriving DecidableEq, Repr

/-- A filesystem path, as used via `pathlib.Path`: directory part
(`path.parent`), stem, and suffix (`path.suffix`, dot included, `""` if
none). -/
structure PathM where
  parent : String
  stem : String
  ext : String
deriving DecidableEq, Repr

/-- The rendered path string, as used for opening files and in
`f"{self.path.parent}/cover.{suffix}"`. -/
def pathKey (p : PathM) : String :=
  p.parent ++ "/" ++ p.stem ++ p.ext

/-- A decoded PIL image: dimensions, source format (`Image.format`, e.g.
`"PNG"` or `"JPEG"`) and exif metadata fields (tag number to value). -/
structure PImage where
  width : Nat
  height : Nat
  format : String
  exif : List (Nat × String)
deriving DecidableEq, Repr

/-- File/picture content: either raw non-image bytes or the bytes of an
encoded image (decoding with `PIL.Image.open` succeeds exactly on the
latter and yields the recorded image). -/
inductive BData where
  | raw (bytes : List Nat)
  | img (i : PImage)
deriving DecidableEq, Repr

/-- A mutagen `Picture` as stored in the FLAC picture list: mime type and
data bytes. -/
structure Pic where
  mime : String
  data : BData
deriving DecidableEq, Repr

/-- The content of a FLAC tag container: the Vorbis-comment map (each key
holds a list of string values; `flac[key] = v` stores the singleton `[v]`)
and the picture list. -/
structure FLACFile where
  tags : String → Option (List String)
  pictures : List Pic

/-- The mutagen FLAC handle owned by a `FLACTrack`: the in-memory state,
the last persisted on-disk state, and a fault schedule giving the outcome
of each successive `save()` call (`true` = the underlying file I/O raises).
An empty schedule means every save succeeds. -/
structure FLACHandle where
  mem : FLACFile
  disk : FLACFile
  faults : List Bool

/-- A Python value as stored in a `Track` slot: `None`, a string scalar, a
decoded image (the `cover` slot), a path (the `path` slot) or a FLAC
handle (the `flac` slot). -/
inductive AVal where
  | none
  | str (s : String)
  | img (i : PImage)
  | pathV (p : PathM)
  | flacV (h : FLACHandle)

/-- `Track.__slots__` from `base.py`, in declaration order. -/
def trackSlots : List String :=
  ["album", "albumartist", "artist", "bpm", "comment", "composer",
   "conductor", "contentgroup", "copyright", "cover", "disc", "encodedby",
   "genre", "initialkey", "isrc", "lyricist", "lyrics", "origartist",
   "path", "publisher", "remixedby", "subtitle", "title", "totaldiscs",
   "totaltracks", "track", "www", "year"]

/-- `FLACTrack.__slots__ = Track.__slots__ + ("flac",)`. -/
def flacSlots : List String := trackSlots ++ ["flac"]

/-- `FLACTrack.attrs`: the AttributeMap from canonical attribute name to
native Vorbis-comment key. -/
def attrsList : List (String × String) :=
  [("album", "album"), ("albumartist", "albumartist"), ("artist", "artist"),
   ("bpm", "bpm"), ("comment", "comment"), ("composer", "composer"),
   ("conductor", "conductor"), ("contentgroup", "contentgroup"),
   ("copyright", "copyright"), ("disc", "discnumber"),
   ("encodedby", "encodedby"), ("genre", "genre"),
   ("initialkey", "initialkey"), ("isrc", "isrc"), ("lyricist", "lyricist"),
   ("lyrics", "lyrics"), ("origartist", "origartist"),
   ("publisher", "organization"), ("remixedby", "remixedby"),
   ("subtitle", "subtitle"), ("title", "title"),
   ("totaldiscs", "disctotal"), ("totaltracks", "tracktotal"),
   ("track", "tracknumber"), ("www", "location"), ("year", "date")]

/-- The canonical attribute names (the keys of the AttributeMap). -/
def attrKeys : List String := attrsList.map Prod.fst

/-- The native keys (the values of the AttributeMap). -/
def attrNatives : List String := attrsList.map Prod.snd

/-- A `FLACTrack` in a post-`__init__` state: the storage of the 26
canonical slots, plus the `path`, `cover` and `flac` slots (`__init__`
always assigns `path` and `flac`; `cover` stays unset when the file has no
picture, hence the `Option`). -/
structure FLACTrack where
  canon : String → Option AVal
  pathS : AVal
  coverS : Option AVal
  flacS : AVal

/-- Slot lookup: the value currently stored under slot `n`, or `none` when
`n` is not a slot of `FLACTrack` or is a slot that was never assigned. -/
def FLACTrack.getSlot (t : FLACTrack) (n : String) : Option AVal :=
  if n = "path" then some t.pathS
  else if n = "cover" then t.coverS
  else if n = "flac" then some t.flacS
  else if n ∈ attrKeys then t.canon n
  else none

/-- Whether slot `n` currently holds a value. -/
def FLACTrack.isSet (t : FLACTrack) (n : String) : Bool :=
  (t.getSlot n).isSome

/-- `FLACTrack.__setattr__(name, value)`: store the value if
`name in self.__slots__ or name in self.attrs`, otherwise raise
`AttributeError(f"Cannot set unknown attribute '{name}'")`.  On success the
value lands in the corresponding slot via `super().__setattr__`. -/
def pySetattr (t : FLACTrack) (n : String) (v : AVal) :
    FLACTrack × Option Err :=
  if n ∈ flacSlots ∨ n ∈ attrKeys then
    (if n = "path" then { t with pathS := v }
     else if n = "cover" then { t with coverS := some v }
     else if n = "flac" then { t with flacS := v }
     else { t with canon := fun m => if m = n then some v else t.canon m },
     Option.none)
  else
    (t, some (.attributeError ("Cannot set unknown attribute '" ++ n ++ "'")))

/-- The class-level attribute names of `FLACTrack` (methods defined in
`base.py` and `flac.py`, the `attrs` table and `__slots__`).  Further
dunder attributes inherited from `object` behave exactly like the names
listed here for every use below (`hasattr` true, `__setattr__` rejects
them), so the list is representative. -/
def classAttrNames : List String :=
  ["read", "save", "read_cover", "add_cover", "export_cover",
   "remove_cover", "delete_tag", "delete_tags", "import_from_dict",
   "export_to_dict", "call_method", "resize_cover", "attrs", "__slots__",
   "__str__", "__init__", "__setattr__", "__getattr__", "__setitem__",
   "__getitem__"]

/-- Character-list prefix test (the computation behind Python's
`str.startswith`). -/
def isPre : List Char → List Char → Bool
  | [], _ => true
  | _ :: _, [] => false
  | c :: cs, d :: ds => c = d && isPre cs ds

/-- Python `name.startswith(pre)`. -/
def strStartsWith (s pre : String) : Bool :=
  isPre pre.toList s.toList

/-- Python `hasattr(self, n)` on a `FLACTrack`: true for a currently-set
slot, for a class attribute (method, `attrs`, ...), and for a name
`set_<a>` with `<a>` in the AttributeMap (for which
`FLACTrack.__getattr__` synthesizes a setter); every other lookup ends in
`__getattr__` raising `AttributeError`. -/
def hasattrF (t : FLACTrack) (n : String) : Bool :=
  t.isSet n || n ∈ classAttrNames ||
    (strStartsWith n "set_" && (attrsList.lookup (n.drop 4)).isSome)

/-- `Track.import_from_dict(_dict)` from `base.py`, running on a
`FLACTrack`: for each key/value in iteration order, if `hasattr(self, key)`
then `setattr(self, key, value)` (which goes through
`FLACTrack.__setattr__` and may itself raise), else raise
`AttributeError(f"Attribute {key} not found in Track class")`.  The state
at the moment an exception is raised is returned with the error. -/
def import_from_dict (t : FLACTrack) :
    List (String × AVal) → FLACTrack × Option Err
  | [] => (t, Option.none)
  | (k, v) :: rest =>
    if hasattrF t k then
      match pySetattr t k v with
      | (t', Option.none) => import_from_dict t' rest
      | (t', some e) => (t', some e)
    else
      (t, some (.attributeError ("Attribute " ++ k ++ " not found in Track class")))

/-- A Python value as it appears in the membership test of
`FLACTrack.delete_tag`: the string `tag` is tested with `in` against the
elements of `self.attrs.items()`, which are `(key, value)` tuples. -/
inductive PyObj where
  | str (s : String)
  | pair (a b : String)
deriving DecidableEq, Repr

/-- `self.attrs.items()` as a list of Python `(key, value)` tuples. -/
def attrsItems : List PyObj := attrsList.map fun p => PyObj.pair p.1 p.2

/-- The empty FLAC handle, used as the junk value of the typed accessors
below; it never surfaces in any theorem (they fix the `flac` slot). -/
def emptyHandle : FLACHandle :=
  ⟨⟨fun _ => Option.none, []⟩, ⟨fun _ => Option.none, []⟩, []⟩

/-- The FLAC handle held in the `flac` slot (set by `__init__`). -/
def FLACTrack.flacH (t : FLACTrack) : FLACHandle :=
  match t.flacS with
  | .flacV h => h
  | _ => emptyHandle

/-- The path held in the `path` slot (set by `__init__`). -/
def FLACTrack.pathP (t : FLACTrack) : PathM :=
  match t.pathS with
  | .pathV p => p
  | _ => ⟨"", "", ""⟩

/-- Replace the handle stored in the `flac` slot. -/
def FLACTrack.withFlac (t : FLACTrack) (h : FLACHandle) : FLACTrack :=
  { t with flacS := .flacV h }

/-- `self.flac.pop(tag)`: remove key `tag` from the in-memory tag map,
raising `KeyError` when it is absent. -/
def flacPop (h : FLACHandle) (tag : String) : FLACHandle × Option Err :=
  match h.mem.tags tag with
  | some _ =>
    ({ h with mem := { h.mem with
        tags := fun m => if m = tag then Option.none else h.mem.tags m } },
     Option.none)
  | Option.none => (h, some (.keyError tag))

/-- `FLACTrack.delete_tag(tag)`: `if tag in self.attrs.items():
self.flac.pop(tag) else: raise WrongFLACAttributeError()`.  Note the
membership test is against the `(key, value)` tuples of the AttributeMap,
not against its keys. -/
def delete_tagOp (t : FLACTrack) (tag : String) : FLACTrack × Option Err :=
  if PyObj.str tag ∈ attrsItems then
    match flacPop t.flacH tag with
    | (h', Option.none) => (t.withFlac h', Option.none)
    | (h', some e) => (t.withFlac h', some e)
  else
    (t, some .wrongFLACAttributeError)

/-- A sample opened FLAC handle with the given picture list, empty tag map
and no injected I/O faults. -/
def sampleHandle (pics : List Pic) : FLACHandle :=
  ⟨⟨fun _ => Option.none, pics⟩, ⟨fun _ => Option.none, pics⟩, []⟩

/-- A sample post-`__init__` track over an audio file with no tags: every
canonical attribute was set to `None` by `read()`, `cover` stays unset,
`path` and `flac` were set by `__init__`. -/
def sampleTrack (pics : List Pic) : FLACTrack :=
  { canon := fun k => if k ∈ attrKeys then some AVal.none else Option.none,
    pathS := .pathV ⟨"/music", "song", ".flac"⟩,
    coverS := Option.none,
    flacS := .flacV (sampleHandle pics) }

theorem str_not_mem_attrsItems (tag : String) :
    PyObj.str tag ∉ attrsItems := by
  intro h
  simp only [attrsItems, attrsList, List.map_cons, List.map_nil,
    List.mem_cons, List.not_mem_nil, or_false] at h
  rcases h with h | h | h | h | h | h | h | h | h | h | h | h | h | h |
    h | h | h | h | h | h | h | h | h | h | h | h <;> exact PyObj.noConfusion h

theorem attrKeys_subset_flacSlots : ∀ x ∈ attrKeys, x ∈ flacSlots := by
  decide

theorem flacSlots_split :
    ∀ x ∈ flacSlots,
      x ∈ attrKeys ∨ x ∈ (["path", "cover", "flac"] : List String) := by
  decide

theorem special_subset_flacSlots :
    ∀ x ∈ (["path", "cover", "flac"] : List String), x ∈ flacSlots := by
  decide

theorem attrKeys_not_special :
    ∀ x ∈ attrKeys, x ≠ "path" ∧ x ≠ "cover" ∧ x ≠ "flac" := by
  decide

/-- C1: `delete_tag` never deletes anything: its guard tests the string
`tag` for membership in `self.attrs.items()`, whose elements are
`(key, value)` tuples, so the test is false for every string and the
method raises `WrongFLACAttributeError` and leaves the track (and its tag
store) unmodified even for canonical names such as `"album"` that are in
the AttributeMap.  The claim (and the base-class contract) says a mapped
name must have its native tag removed. -/
theorem c1_delete_tag_always_errors :
    (∀ (t : FLACTrack) (tag : String),
      delete_tagOp t tag = (t, some Err.wrongFLACAttributeError)) ∧
    "album" ∈ attrKeys := by
  refine ⟨fun t tag => ?_, by decide⟩
  unfold delete_tagOp
  rw [if_neg (str_not_mem_attrsItems tag)]

/-- C2 counterexample: `"path"` is not a canonical attribute (it is not a
key of the AttributeMap), yet `import_from_dict` with the single-entry
mapping `{"path": <a path>}` succeeds, because the code only checks
`hasattr(self, key)` and the `path` slot is set on every constructed
track.  The claim requires this call to fail with an
`UnknownAttributeError`. -/
theorem c2_counterexample :
    "path" ∉ attrKeys ∧
    (import_from_dict (sampleTrack [])
      [("path", AVal.pathV ⟨"/x", "b", ".flac"⟩)]).2 = Option.none := by
  constructor
  · decide
  · rfl

theorem hasattr_of_isSet (t : FLACTrack) (k : String) (h : t.isSet k = true) :
    hasattrF t k = true := by
  simp [hasattrF, h]

theorem isSet_mem_slots (t : FLACTrack) (k : String) (h : t.isSet k = true) :
    k ∈ flacSlots ∨ k ∈ attrKeys := by
  simp only [FLACTrack.isSet, FLACTrack.getSlot] at h
  by_cases h1 : k = "path"
  · exact Or.inl (h1 ▸ by decide)
  by_cases h2 : k = "cover"
  · exact Or.inl (h2 ▸ by decide)
  by_cases h3 : k = "flac"
  · exact Or.inl (h3 ▸ by decide)
  by_cases h4 : k ∈ attrKeys
  · exact Or.inr h4
  · simp [h1, h2, h3, h4] at h

theorem classAttr_not_slot :
    ∀ x ∈ classAttrNames, x ∉ flacSlots ∧ x ∉ attrKeys := by
  decide

theorem slots_not_setter :
    ∀ x ∈ flacSlots, strStartsWith x "set_" = false := by
  decide

theorem import_cons (t : FLACTrack) (k : String) (v : AVal)
    (rest : List (String × AVal)) :
    import_from_dict t ((k, v) :: rest) =
      if hasattrF t k then
        match pySetattr t k v with
        | (t', Option.none) => import_from_dict t' rest
        | (t', some e) => (t', some e)
      else
        (t, some (.attributeError
          ("Attribute " ++ k ++ " not found in Track class"))) := rfl

/-- C2 (amended): `import_from_dict` processes keys in iteration order.  A
key naming a currently-set slot (after construction: every canonical
attribute, plus `path`, `flac`, and `cover` when a cover was read) is
assigned and processing continues; a key that does not name a
currently-set slot makes the call fail with an `AttributeError` whose
message names the key — either the "not found" message when the object
has no such attribute at all, or the `__setattr__` rejection when the name
is a class attribute or a synthesized `set_*` setter — leaving the track
unchanged from that point, so keys applied earlier remain set
(non-transactional). -/
theorem c2_import_step (t : FLACTrack) (k : String) (v : AVal)
    (rest : List (String × AVal)) :
    (t.isSet k = true →
      import_from_dict t ((k, v) :: rest) =
        import_from_dict (pySetattr t k v).1 rest ∧
      (pySetattr t k v).2 = Option.none ∧
      (pySetattr t k v).1.getSlot k = some v) ∧
    (t.isSet k = false →
      (import_from_dict t ((k, v) :: rest)).1 = t ∧
      ((import_from_dict t ((k, v) :: rest)).2 =
          some (.attributeError ("Attribute " ++ k ++ " not found in Track class")) ∨
        (import_from_dict t ((k, v) :: rest)).2 =
          some (.attributeError ("Cannot set unknown attribute '" ++ k ++ "'")))) ∧
    import_from_dict t [] = (t, Option.none) := by
  refine ⟨fun hset => ?_, fun hns => ?_, rfl⟩
  · have hmem := isSet_mem_slots t k hset
    have hok : (pySetattr t k v).2 = Option.none := by
      unfold pySetattr
      rw [if_pos hmem]
    refine ⟨?_, hok, ?_⟩
    · rw [import_cons, if_pos (hasattr_of_isSet t k hset)]
      rcases hps : pySetattr t k v with ⟨t', e'⟩
      rw [hps] at hok
      simp only at hok
      subst hok
      rfl
    · unfold pySetattr
      rw [if_pos hmem]
      by_cases h1 : k = "path"
      · subst h1; simp [FLACTrack.getSlot]
      by_cases h2 : k = "cover"
      · subst h2; simp [FLACTrack.getSlot]
      by_cases h3 : k = "flac"
      · subst h3; simp [FLACTrack.getSlot]
      · have hk : k ∈ attrKeys := by
          rcases hmem with hm | hm
          · rcases flacSlots_split k hm with h | h
            · exact h
            · exfalso
              simp only [List.mem_cons, List.not_mem_nil, or_false] at h
              rcases h with h | h | h
              exacts [h1 h, h2 h, h3 h]
          · exact hm
        simp [h1, h2, h3, FLACTrack.getSlot, hk]
  · by_cases hh : hasattrF t k = true
    · have hbad : ¬(k ∈ flacSlots ∨ k ∈ attrKeys) := by
        simp only [hasattrF, hns, Bool.false_or, Bool.or_eq_true,
          Bool.and_eq_true, decide_eq_true_eq] at hh
        rcases hh with hc | ⟨hs, _⟩
        · rintro (hm | hm)
          · exact (classAttr_not_slot k hc).1 hm
          · exact (classAttr_not_slot k hc).2 hm
        · rintro (hm | hm)
          · rw [slots_not_setter k hm] at hs; exact Bool.noConfusion hs
          · rw [slots_not_setter k (attrKeys_subset_flacSlots k hm)] at hs
            exact Bool.noConfusion hs
      have hps : pySetattr t k v =
          (t, some (.attributeError ("Cannot set unknown attribute '" ++ k ++ "'"))) := by
        unfold pySetattr
        rw [if_neg hbad]
      rw [import_cons, if_pos hh, hps]
      exact ⟨rfl, Or.inr rfl⟩
    · rw [import_cons, if_neg hh]
      exact ⟨rfl, Or.inl rfl⟩

/-- Witness for `c2_import_step` at concrete inputs: on a constructed
track, `"title"` is a set slot and its assignment succeeds, while
`"zzz"` is not and the import leaves the track unchanged. -/
theorem c2_import_step_witness :
    ((sampleTrack []).isSet "title" = true ∧
      (pySetattr (sampleTrack []) "title" (AVal.str "X")).2 = Option.none) ∧
    ((sampleTrack []).isSet "zzz" = false ∧
      (import_from_dict (sampleTrack []) [("zzz", AVal.str "X")]).1 =
        sampleTrack []) :=
  ⟨⟨by decide,
    ((c2_import_step (sampleTrack []) "title" (AVal.str "X") []).1
      (by decide)).2.1⟩,
   ⟨by decide,
    ((c2_import_step (sampleTrack []) "zzz" (AVal.str "X") []).2.1
      (by decide)).1⟩⟩

/-- C3: assigning value `v` to attribute `n` on a `FLACTrack` succeeds
exactly when `n` is a canonical attribute or one of the adapter-internal
fields `path`, `cover`, `flac`; for any other `n` the assignment raises an
`AttributeError` naming `n` and leaves the track unchanged (no field is
ever silently created). -/
theorem c3_setattr_allowlist (t : FLACTrack) (n : String) (v : AVal) :
    ((n ∈ attrKeys ∨ n ∈ (["path", "cover", "flac"] : List String)) ↔
      (pySetattr t n v).2 = Option.none) ∧
    (¬(n ∈ attrKeys ∨ n ∈ (["path", "cover", "flac"] : List String)) →
      (pySetattr t n v).1 = t ∧
      (pySetattr t n v).2 =
        some (.attributeError ("Cannot set unknown attribute '" ++ n ++ "'"))) := by
  have hiff : (n ∈ flacSlots ∨ n ∈ attrKeys) ↔
      (n ∈ attrKeys ∨ n ∈ (["path", "cover", "flac"] : List String)) := by
    constructor
    · rintro (h | h)
      · exact flacSlots_split n h
      · exact Or.inl h
    · rintro (h | h)
      · exact Or.inr h
      · exact Or.inl (special_subset_flacSlots n h)
  constructor
  · constructor
    · intro h
      unfold pySetattr
      rw [if_pos (hiff.mpr h)]
    · intro h
      by_cases hc : n ∈ flacSlots ∨ n ∈ attrKeys
      · exact hiff.mp hc
      · exfalso
        unfold pySetattr at h
        rw [if_neg hc] at h
        exact Option.noConfusion h
  · intro h
    have hc : ¬(n ∈ flacSlots ∨ n ∈ attrKeys) := fun hc => h (hiff.mp hc)
    unfold pySetattr
    rw [if_neg hc]
    exact ⟨rfl, rfl⟩

/-- Witness for `c3_setattr_allowlist`: `"composer"` is allowed and the
assignment succeeds; `"qqq"` is outside the allow-list and the assignment
fails, naming it, with the track unchanged. -/
theorem c3_setattr_allowlist_witness :
    (pySetattr (sampleTrack []) "composer" (AVal.str "B")).2 = Option.none ∧
    ((pySetattr (sampleTrack []) "qqq" (AVal.str "B")).1 = sampleTrack [] ∧
      (pySetattr (sampleTrack []) "qqq" (AVal.str "B")).2 =
        some (.attributeError "Cannot set unknown attribute 'qqq'")) :=
  ⟨(c3_setattr_allowlist (sampleTrack []) "composer" (AVal.str "B")).1.mp
      (by decide),
   (c3_setattr_allowlist (sampleTrack []) "qqq" (AVal.str "B")).2
      (by decide)⟩

/-- `self.flac.get(nk, [None])[0]`: the first entry of the value list
stored under the native key, or Python `None` when the key is absent.
`__setitem__` only ever stores singleton string lists, so the
stored-empty-list case (where `[0]` would raise in Python) never arises;
it is mapped to `None`. -/
def flacGetTag (f : FLACFile) (nk : String) : AVal :=
  match f.tags nk with
  | some (s :: _) => .str s
  | some [] => AVal.none
  | Option.none => AVal.none

/-- `self.flac[nk] = s`: mutagen's VComment wraps the assigned string into
a singleton list, in memory only. -/
def setTag (h : FLACHandle) (nk s : String) : FLACHandle :=
  { h with mem := { h.mem with
      tags := fun m => if m = nk then some [s] else h.mem.tags m } }

/-- `self.flac.save(...)`: persist the in-memory state to disk.  The next
entry of the fault schedule decides whether the underlying file I/O
raises (in which case the on-disk state is not replaced). -/
def flacSave (h : FLACHandle) : FLACHandle × Option Err :=
  match h.faults with
  | [] => ({ h with disk := h.mem }, Option.none)
  | b :: rest =>
    if b then ({ h with faults := rest }, some .ioError)
    else ({ mem := h.mem, disk := h.mem, faults := rest }, Option.none)

/-- The string pushed into the store for one canonical attribute during
`save`: `attr_value = getattr(self, key, "")`, then
`if attr_value is None: attr_value = ""`, then `self.flac[value] =
attr_value`.  A stored value that is neither a string nor `None` makes
mutagen's text validation raise, modelled as `Option.none`. -/
def saveVal (o : Option AVal) : Option String :=
  match o with
  | Option.none => some ""
  | some AVal.none => some ""
  | some (.str s) => some s
  | some _ => Option.none

/-- The tag-writing loop of `FLACTrack.save` over (a suffix of) the
AttributeMap items. -/
def saveTags : FLACTrack → List (String × String) → FLACTrack × Option Err
  | t, [] => (t, Option.none)
  | t, (k, nk) :: rest =>
    match saveVal (t.getSlot k) with
    | some s => saveTags (t.withFlac (setTag t.flacH nk s)) rest
    | Option.none => (t, some .typeError)

/-- `FLACTrack.save()`: push every canonical attribute value into the
store under its native key, then persist with `self.flac.save(self.path)`. -/
def saveOp (t : FLACTrack) : FLACTrack × Option Err :=
  match saveTags t attrsList with
  | (t1, some e) => (t1, some e)
  | (t1, Option.none) =>
    match flacSave t1.flacH with
    | (h', e) => (t1.withFlac h', e)

/-- The attribute-reading loop of `FLACTrack.read` over (a suffix of) the
AttributeMap items: `self.__setattr__(key, self.flac.get(value, [None])[0])`. -/
def readTags : FLACTrack → List (String × String) → FLACTrack × Option Err
  | t, [] => (t, Option.none)
  | t, (k, nk) :: rest =>
    match pySetattr t k (flacGetTag t.flacH.mem nk) with
    | (t', Option.none) => readTags t' rest
    | (t', some e) => (t', some e)

/-- `FLACTrack.read()`. -/
def readOp (t : FLACTrack) : FLACTrack × Option Err := readTags t attrsList

theorem flacH_of_flacS (t : FLACTrack) (h : FLACHandle)
    (hf : t.flacS = AVal.flacV h) : t.flacH = h := by
  simp [FLACTrack.flacH, hf]

theorem getSlot_withFlac (t : FLACTrack) (h : FLACHandle) (k : String)
    (hk : k ∈ attrKeys) : (t.withFlac h).getSlot k = t.getSlot k := by
  obtain ⟨h1, h2, h3⟩ := attrKeys_not_special k hk
  simp [FLACTrack.getSlot, FLACTrack.withFlac, h1, h2, h3]

theorem pySetattr_canon (t : FLACTrack) (k : String) (v : AVal)
    (hk : k ∈ attrKeys) :
    pySetattr t k v =
      ({ t with canon := fun m => if m = k then some v else t.canon m },
       Option.none) := by
  obtain ⟨h1, h2, h3⟩ := attrKeys_not_special k hk
  unfold pySetattr
  rw [if_pos (Or.inr hk)]
  simp [h1, h2, h3]

theorem getSlot_canonUpdate (t : FLACTrack) (k : String) (v : AVal)
    (hk : k ∈ attrKeys) (k' : String) :
    ({ t with canon := fun m => if m = k then some v else t.canon m } :
        FLACTrack).getSlot k' =
      if k' = k then some v else t.getSlot k' := by
  obtain ⟨h1, h2, h3⟩ := attrKeys_not_special k hk
  by_cases e1 : k' = "path"
  · subst e1
    simp [FLACTrack.getSlot, Ne.symm h1]
  by_cases e2 : k' = "cover"
  · subst e2
    simp [FLACTrack.getSlot, e1, Ne.symm h2]
  by_cases e3 : k' = "flac"
  · subst e3
    simp [FLACTrack.getSlot, e1, e2, Ne.symm h3]
  by_cases e4 : k' ∈ attrKeys
  · by_cases e5 : k' = k
    · subst e5
      simp [FLACTrack.getSlot, e1, e2, e3, e4]
    · simp [FLACTrack.getSlot, e1, e2, e3, e4, e5]
  · have h5 : k' ≠ k := fun he => e4 (he ▸ hk)
    simp [FLACTrack.getSlot, e1, e2, e3, e4, h5]

theorem readTags_spec (l : List (String × String)) :
    ∀ t : FLACTrack,
      (∀ p ∈ l, p.1 ∈ attrKeys) → (l.map Prod.fst).Nodup →
      (readTags t l).2 = Option.none ∧
      (readTags t l).1.flacS = t.flacS ∧
      (∀ p ∈ l,
        (readTags t l).1.getSlot p.1 = some (flacGetTag t.flacH.mem p.2)) ∧
      (∀ k, k ∉ l.map Prod.fst →
        (readTags t l).1.getSlot k = t.getSlot k) := by
  induction l with
  | nil =>
    intro t _ _
    exact ⟨rfl, rfl, fun p hp => absurd hp (List.not_mem_nil p), fun _ _ => rfl⟩
  | cons p rest ih =>
    obtain ⟨k, nk⟩ := p
    intro t hall hnd
    have hk : k ∈ attrKeys := hall (k, nk) (List.mem_cons_self _ _)
    have hnd' : (rest.map Prod.fst).Nodup := (List.nodup_cons.mp hnd).2
    have hknot : k ∉ rest.map Prod.fst := (List.nodup_cons.mp hnd).1
    have hall' : ∀ q ∈ rest, q.1 ∈ attrKeys :=
      fun q hq => hall q (List.mem_cons_of_mem _ hq)
    set t1 : FLACTrack :=
      { t with canon := fun m =>
          if m = k then some (flacGetTag t.flacH.mem nk) else t.canon m }
      with ht1
    have hstep : readTags t ((k, nk) :: rest) = readTags t1 rest := by
      show (match pySetattr t k (flacGetTag t.flacH.mem nk) with
        | (t', Option.none) => readTags t' rest
        | (t', some e) => (t', some e)) = readTags t1 rest
      rw [pySetattr_canon t k _ hk]
    have hfl1 : t1.flacS = t.flacS := rfl
    have hfh1 : t1.flacH = t.flacH := rfl
    obtain ⟨ih1, ih2, ih3, ih4⟩ := ih t1 hall' hnd'
    rw [hstep]
    refine ⟨ih1, ih2.trans hfl1, ?_, ?_⟩
    · intro q hq
      rcases List.mem_cons.mp hq with he | hq'
      · subst he
        rw [ih4 k hknot, ht1, getSlot_canonUpdate t k _ hk, if_pos rfl]
      · rw [ih3 q hq', hfh1]
    · intro k' hk'
      have hk'1 : k' ≠ k := fun he =>
        hk' (he ▸ List.mem_cons_self _ _ : k' ∈ (k :: rest.map Prod.fst))
      have hk'2 : k' ∉ rest.map Prod.fst :=
        fun hm => hk' (List.mem_cons_of_mem _ hm)
      rw [ih4 k' hk'2, ht1, getSlot_canonUpdate t k _ hk, if_neg hk'1]

theorem saveTags_spec (l : List (String × String)) :
    ∀ t : FLACTrack,
      (∀ p ∈ l, p.1 ∈ attrKeys) → (l.map Prod.snd).Nodup →
      (∀ p ∈ l, (saveVal (t.getSlot p.1)).isSome = true) →
      (saveTags t l).2 = Option.none ∧
      (saveTags t l).1.canon = t.canon ∧
      (saveTags t l).1.pathS = t.pathS ∧
      (saveTags t l).1.coverS = t.coverS ∧
      (saveTags t l).1.flacH.faults = t.flacH.faults ∧
      (saveTags t l).1.flacH.mem.pictures = t.flacH.mem.pictures ∧
      (∀ p ∈ l, (saveTags t l).1.flacH.mem.tags p.2 =
        some [(saveVal (t.getSlot p.1)).getD ""]) ∧
      (∀ nk, nk ∉ l.map Prod.snd →
        (saveTags t l).1.flacH.mem.tags nk = t.flacH.mem.tags nk) := by
  induction l with
  | nil =>
    intro t _ _ _
    exact ⟨rfl, rfl, rfl, rfl, rfl, rfl,
      fun p hp => absurd hp (List.not_mem_nil p), fun _ _ => rfl⟩
  | cons p rest ih =>
    obtain ⟨k, nk⟩ := p
    intro t hall hnd hsc
    have hk : k ∈ attrKeys := hall (k, nk) (List.mem_cons_self _ _)
    have hnd' : (rest.map Prod.snd).Nodup := (List.nodup_cons.mp hnd).2
    have hnknot : nk ∉ rest.map Prod.snd := (List.nodup_cons.mp hnd).1
    have hall' : ∀ q ∈ rest, q.1 ∈ attrKeys :=
      fun q hq => hall q (List.mem_cons_of_mem _ hq)
    obtain ⟨s, hs⟩ := Option.isSome_iff_exists.mp
      (hsc (k, nk) (List.mem_cons_self _ _))
    set t1 : FLACTrack := t.withFlac (setTag t.flacH nk s) with ht1
    have hstep : saveTags t ((k, nk) :: rest) = saveTags t1 rest := by
      show (match saveVal (t.getSlot k) with
        | some s => saveTags (t.withFlac (setTag t.flacH nk s)) rest
        | Option.none => (t, some .typeError)) = saveTags t1 rest
      rw [hs]
    have hslot : ∀ k', k' ∈ attrKeys → t1.getSlot k' = t.getSlot k' :=
      fun k' hk' => getSlot_withFlac t _ k' hk'
    have hsc' : ∀ q ∈ rest, (saveVal (t1.getSlot q.1)).isSome = true := by
      intro q hq
      rw [hslot q.1 (hall' q hq)]
      exact hsc q (List.mem_cons_of_mem _ hq)
    obtain ⟨ih1, ih2, ih3, ih4, ih5, ih6, ih7, ih8⟩ := ih t1 hall' hnd' hsc'
    rw [hstep]
    refine ⟨ih1, ih2, ih3, ih4, ih5, ih6, ?_, ?_⟩
    · intro q hq
      rcases List.mem_cons.mp hq with he | hq'
      · subst he
        rw [ih8 nk hnknot]
        show (setTag t.flacH nk s).mem.tags nk = _
        rw [hs]
        simp [setTag]

      · rw [ih7 q hq', hslot q.1 (hall' q hq')]
    · intro nk' hnk'
      have h1 : nk' ≠ nk := fun he =>
        hnk' (he ▸ List.mem_cons_self _ _ : nk' ∈ (nk :: rest.map Prod.snd))
      have h2 : nk' ∉ rest.map Prod.snd :=
        fun hm => hnk' (List.mem_cons_of_mem _ hm)
      rw [ih8 nk' h2]
      show (setTag t.flacH nk s).mem.tags nk' = _
      simp [setTag, h1]

theorem attrsList_keys_mem : ∀ p ∈ attrsList, p.1 ∈ attrKeys := by decide

theorem attrsList_keys_nodup : (attrsList.map Prod.fst).Nodup := by decide

theorem attrsList_natives_nodup : (attrsList.map Prod.snd).Nodup := by decide

/-- C4: on a track whose canonical attributes hold scalar values (strings
or `None`) and whose store save does not hit an I/O fault, `save()`
followed by `read()` succeeds and reproduces every canonical attribute
value that was present before `save()`, except that an attribute that was
`None` comes back as the empty string (null and empty collapse). -/
theorem c4_save_read_roundtrip (t : FLACTrack) (h : FLACHandle)
    (hf : t.flacS = AVal.flacV h) (hfl : h.faults = [])
    (hsc : ∀ k ∈ attrKeys, (saveVal (t.getSlot k)).isSome = true) :
    (saveOp t).2 = Option.none ∧
    (readOp (saveOp t).1).2 = Option.none ∧
    ∀ k ∈ attrKeys,
      (∀ s, t.getSlot k = some (AVal.str s) →
        (readOp (saveOp t).1).1.getSlot k = some (AVal.str s)) ∧
      (t.getSlot k = some AVal.none →
        (readOp (saveOp t).1).1.getSlot k = some (AVal.str "")) := by
  have hsc' : ∀ p ∈ attrsList, (saveVal (t.getSlot p.1)).isSome = true :=
    fun p hp => hsc p.1 (attrsList_keys_mem p hp)
  obtain ⟨s1, s2, s3, s4, s5, s6, s7, s8⟩ :=
    saveTags_spec attrsList t attrsList_keys_mem attrsList_natives_nodup hsc'
  rcases hst : saveTags t attrsList with ⟨t1, e1⟩
  rw [hst] at s1 s2 s3 s4 s5 s6 s7 s8
  simp only at s1 s2 s3 s4 s5 s6 s7 s8
  subst s1
  have ht1f : t1.flacH.faults = [] := by
    rw [s5, flacH_of_flacS t h hf, hfl]
  have hsave : flacSave t1.flacH =
      (FLACHandle.mk t1.flacH.mem t1.flacH.mem t1.flacH.faults,
       Option.none) := by
    unfold flacSave
    rw [ht1f]
  have hso : saveOp t =
      (t1.withFlac (FLACHandle.mk t1.flacH.mem t1.flacH.mem t1.flacH.faults),
       Option.none) := by
    unfold saveOp
    rw [hst]
    show (match flacSave t1.flacH with | (h', e) => (t1.withFlac h', e)) = _
    rw [hsave]
  set t2 : FLACTrack :=
    t1.withFlac (FLACHandle.mk t1.flacH.mem t1.flacH.mem t1.flacH.faults)
    with ht2
  have ht2slot : ∀ k ∈ attrKeys, t2.getSlot k = t1.getSlot k :=
    fun k hk => getSlot_withFlac t1 _ k hk
  have ht2mem : t2.flacH.mem = t1.flacH.mem := rfl
  obtain ⟨r1, r2, r3, r4⟩ :=
    readTags_spec attrsList t2 attrsList_keys_mem attrsList_keys_nodup
  rw [hso]
  refine ⟨rfl, r1, ?_⟩
  intro k hk
  obtain ⟨p, hp, hpk⟩ := List.mem_map.mp hk
  have hread : (readTags t2 attrsList).1.getSlot k =
      some (flacGetTag t2.flacH.mem p.2) := hpk ▸ r3 p hp
  have htag : t2.flacH.mem.tags p.2 = some [(saveVal (t.getSlot k)).getD ""] := by
    rw [ht2mem]
    exact hpk ▸ s7 p hp
  have hval : flacGetTag t2.flacH.mem p.2 =
      AVal.str ((saveVal (t.getSlot k)).getD "") := by
    unfold flacGetTag
    rw [htag]
  constructor
  · intro s hs
    show (readTags t2 attrsList).1.getSlot k = _
    rw [hread, hval, hs]
    rfl
  · intro hs
    show (readTags t2 attrsList).1.getSlot k = _
    rw [hread, hval, hs]
    rfl

/-- Witness for `c4_save_read_roundtrip`: a concrete track with
`title = "Song"` and `artist = None`; after `save(); read()`, `title` is
still `"Song"` and `artist` has become `""`. -/
theorem c4_save_read_roundtrip_witness :
    ((sampleTrack []).flacS = AVal.flacV (sampleHandle []) ∧
      (sampleHandle []).faults = [] ∧
      (pySetattr (sampleTrack []) "title" (AVal.str "Song")).1.getSlot "title" =
        some (AVal.str "Song") ∧
      (pySetattr (sampleTrack []) "title" (AVal.str "Song")).1.getSlot "artist" =
        some AVal.none) ∧
    ((readOp (saveOp (pySetattr (sampleTrack []) "title" (AVal.str "Song")).1).1).1.getSlot
        "title" = some (AVal.str "Song") ∧
      (readOp (saveOp (pySetattr (sampleTrack []) "title" (AVal.str "Song")).1).1).1.getSlot
        "artist" = some (AVal.str "")) :=
  ⟨⟨rfl, rfl, rfl, rfl⟩,
   ((c4_save_read_roundtrip
      (pySetattr (sampleTrack []) "title" (AVal.str "Song")).1
      (sampleHandle []) rfl rfl (by decide)).2.2 "title" (by decide)).1
      "Song" rfl,
   ((c4_save_read_roundtrip
      (pySetattr (sampleTrack []) "title" (AVal.str "Song")).1
      (sampleHandle []) rfl rfl (by decide)).2.2 "artist" (by decide)).2
      rfl⟩

/-- The filesystem outside the tag store: rendered path string to file
bytes. -/
def FS := String → Option BData

/-- `open(path, "wb").write(b)`. -/
def fsWrite (fs : FS) (p : PathM) (b : BData) : FS :=
  fun k => if k = pathKey p then some b else fs k

/-- `path.unlink()`. -/
def fsRemove (fs : FS) (p : PathM) : FS :=
  fun k => if k = pathKey p then Option.none else fs k

/-- `PIL.Image.open(BytesIO(data))`: decoding succeeds exactly on encoded
image bytes and yields the recorded image. -/
def decodeImage : BData → Option PImage
  | .img i => some i
  | .raw _ => Option.none

/-- `FLACTrack.read_cover()`: if the store's picture list is non-empty,
decode entry 0, assign it to `self.cover` (through `__setattr__`) and
return it; otherwise return `None` leaving the cover slot untouched. -/
def read_coverOp (t : FLACTrack) : FLACTrack × Option Err × Option PImage :=
  match t.flacH.mem.pictures with
  | [] => (t, Option.none, Option.none)
  | p :: _ =>
    match decodeImage p.data with
    | some i =>
      match pySetattr t "cover" (.img i) with
      | (t', Option.none) => (t', Option.none, some i)
      | (t', some e) => (t', some e, Option.none)
    | Option.none => (t, some .unidentifiedImageError, Option.none)

/-- `self.flac.clear_pictures()` (in memory). -/
def clearPictures (h : FLACHandle) : FLACHandle :=
  { h with mem := { h.mem with pictures := [] } }

/-- `self.flac.add_picture(p)` (in memory). -/
def addPicture (h : FLACHandle) (p : Pic) : FLACHandle :=
  { h with mem := { h.mem with pictures := h.mem.pictures ++ [p] } }

/-- `FLACTrack.remove_cover()`: clear all pictures and persist. -/
def remove_coverOp (t : FLACTrack) : FLACTrack × Option Err :=
  match flacSave (clearPictures t.flacH) with
  | (h', e) => (t.withFlac h', e)

/-- The cover extensions accepted by `add_cover`
(`path.suffix in [".jpg", ".jpeg", ".png"]`). -/
def coverExts : List String := [".jpg", ".jpeg", ".png"]

/-- `FLACTrack.add_cover(path)`: validate the extension, read the file's
raw bytes, derive the mime type (`image/png` for `.png`, else
`image/jpeg`), remove any existing cover (which itself persists), append
the new picture as the sole one and persist again. -/
def add_coverOp (t : FLACTrack) (fs : FS) (p : PathM) :
    FLACTrack × FS × Option Err :=
  if p.ext ∈ coverExts then
    match fs (pathKey p) with
    | Option.none => (t, fs, some .fileNotFoundError)
    | some bytes =>
      let mime := if p.ext = ".png" then "image/png" else "image/jpeg"
      match remove_coverOp t with
      | (t1, some e) => (t1, fs, some e)
      | (t1, Option.none) =>
        match flacSave (addPicture t1.flacH (Pic.mk mime bytes)) with
        | (h3, e) => (t1.withFlac h3, fs, e)
  else
    (t, fs, some (.wrongPictureFormatError
      "Supported extensions are 'jpg', 'jpeg', 'png'."))

/-- `FLACTrack.export_cover(path=None)`: with no pictures return `None`
and touch nothing; otherwise derive the suffix from the stored mime type,
default the destination to `<parent>/cover.<suffix>`, write the raw
picture bytes verbatim there and return the path. -/
def export_coverOp (t : FLACTrack) (fs : FS) (pOpt : Option PathM) :
    FS × Option PathM :=
  match t.flacH.mem.pictures with
  | [] => (fs, Option.none)
  | pic :: _ =>
    let sf := if pic.mime = "image/png" then "png" else "jpg"
    let dest := match pOpt with
      | Option.none => PathM.mk t.pathP.parent "cover" ("." ++ sf)
      | some p => p
    (fsWrite fs dest pic.data, some dest)

/-- An exact fraction `num / den`: the value space in which Python's
binary64 floats are represented below.  Every finite double is an exact
rational, so a double is modelled by the `Frac` denoting its exact value;
each float operation is the exact rational operation followed by
`toF64`, IEEE 754 round-to-nearest-even at 53 bits of precision, and
float comparisons, `abs`, `math.floor`/`math.ceil` and `int()` are exact
on these values. -/
structure Frac where
  num : ℤ
  den : ℤ
deriving DecidableEq, Repr

/-- A natural number as a fraction. -/
def natF (n : Nat) : Frac := ⟨n, 1⟩

/-- An integer as a fraction. -/
def intF (n : ℤ) : Frac := ⟨n, 1⟩

/-- Exact division of fractions. -/
def fdiv (a b : Frac) : Frac := ⟨a.num * b.den, a.den * b.num⟩

/-- Exact multiplication of fractions. -/
def fmul (a b : Frac) : Frac := ⟨a.num * b.num, a.den * b.den⟩

/-- Exact subtraction of fractions. -/
def fsub (a b : Frac) : Frac := ⟨a.num * b.den - b.num * a.den, a.den * b.den⟩

/-- Absolute value of a fraction. -/
def fabsF (a : Frac) : Frac := ⟨|a.num|, |a.den|⟩

/-- Comparison `a <= b` by cross multiplication (valid for the positive
denominators maintained below). -/
def fleF (a b : Frac) : Bool := decide (a.num * b.den ≤ b.num * a.den)

/-- `math.floor` of a fraction (floor division; denominator positive). -/
def ffloor (a : Frac) : ℤ := Int.fdiv a.num a.den

/-- `math.ceil` of a fraction. -/
def fceil (a : Frac) : ℤ := -(Int.fdiv (-a.num) a.den)

/-- Python `int(q)`: truncation toward zero. -/
def pyInt (a : Frac) : ℤ := Int.tdiv a.num a.den

/-- Scale a positive fraction into `[2^52, 2^53)` by powers of two,
tracking the binary exponent (the value `q * 2^e` is invariant).  The
fuel bounds the loop for totality; it is ample for every double whose
exponent is in the normal range, which covers all values arising below
(dimension ratios; subnormals and overflow are outside this
development's scope). -/
def normLoop : Nat → Frac → ℤ → Frac × ℤ
  | 0, q, e => (q, e)
  | fuel + 1, q, e =>
    if fleF (natF (2 ^ 53)) q then normLoop fuel ⟨q.num, q.den * 2⟩ (e + 1)
    else if fleF (natF (2 ^ 52)) q then (q, e)
    else normLoop fuel ⟨q.num * 2, q.den⟩ (e - 1)

/-- Round a fraction (positive denominator) to the nearest integer, ties
to even. -/
def roundNearestEven (q : Frac) : ℤ :=
  if 2 * (q.num - ffloor q * q.den) < q.den then ffloor q
  else if q.den < 2 * (q.num - ffloor q * q.den) then ffloor q + 1
  else if ffloor q % 2 = 0 then ffloor q else ffloor q + 1

/-- The exact value of the binary64 double nearest to the positive
rational `n / d` (round-to-nearest-even at 53 significant bits):
normalize the significand into `[2^52, 2^53)`, round it, and reapply the
exponent. -/
def toF64Pos (n d : ℤ) : Frac :=
  match normLoop 4500 ⟨n, d⟩ 0 with
  | (s, e) =>
    if 0 ≤ e then ⟨roundNearestEven s * 2 ^ e.toNat, 1⟩
    else ⟨roundNearestEven s, 2 ^ (-e).toNat⟩

/-- The exact value of the binary64 double nearest a rational (rounding
is symmetric about zero; a zero numerator or denominator maps to zero,
the latter standing in for Python's `ZeroDivisionError`, unreachable at
the use sites below). -/
def toF64 (q : Frac) : Frac :=
  if q.num = 0 ∨ q.den = 0 then ⟨0, 1⟩
  else if 0 < q.num * q.den then toF64Pos |q.num| |q.den|
  else ⟨-(toF64Pos |q.num| |q.den|).num, (toF64Pos |q.num| |q.den|).den⟩

/-- Python float division (correctly rounded; also int/int `/`, which
CPython rounds once from the exact integer ratio). -/
def fdivD (a b : Frac) : Frac := toF64 (fdiv a b)

/-- Python float multiplication (correctly rounded). -/
def fmulD (a b : Frac) : Frac := toF64 (fmul a b)

/-- Python float subtraction (correctly rounded). -/
def fsubD (a b : Frac) : Frac := toF64 (fsub a b)

/-- Conversion of a Python int to a float (exact below `2^53`, rounded
above). -/
def natFD (n : Nat) : Frac := toF64 ⟨n, 1⟩

/-- PIL's `round_aspect(number, key)` in the `x`-branch of
`Image.thumbnail`: `max(min(floor(number), ceil(number), key=lambda n:
abs(aspect - n / y)), 1)` (Python `min` keeps the first argument on
ties). -/
def roundAspectX (num aspect : Frac) (y : Nat) : ℤ :=
  max (if fleF (fabsF (fsubD aspect (fdivD (intF (ffloor num)) (natF y))))
      (fabsF (fsubD aspect (fdivD (intF (fceil num)) (natF y))))
    then ffloor num else fceil num) 1

/-- PIL's `round_aspect(number, key)` in the `y`-branch:
`key=lambda n: 0 if n == 0 else abs(aspect - x / n)`. -/
def roundAspectY (num aspect : Frac) (x : Nat) : ℤ :=
  max (if fleF
      (if ffloor num = 0 then natF 0
        else fabsF (fsubD aspect (fdivD (natF x) (intF (ffloor num)))))
      (if fceil num = 0 then natF 0
        else fabsF (fsubD aspect (fdivD (natF x) (intF (fceil num)))))
    then ffloor num else fceil num) 1

/-- `PIL.Image.thumbnail((bw, bh))`: no-op when the box already contains
the image; otherwise the aspect-preserving fit of the image into the box
(`preserve_aspect_ratio` in PIL), which only ever shrinks. -/
def thumbnailOp (img : PImage) (bw bh : Nat) : PImage :=
  if bw ≥ img.width ∧ bh ≥ img.height then img
  else if fleF (fdivD (natF img.width) (natF img.height))
      (fdivD (natF bw) (natF bh)) then
    { img with
        width := (roundAspectX
          (fmulD (natFD bh) (fdivD (natF img.width) (natF img.height)))
          (fdivD (natF img.width) (natF img.height)) bh).toNat,
        height := bh }
  else
    { img with
        width := bw,
        height := (roundAspectY
          (fdivD (natFD bw) (fdivD (natF img.width) (natF img.height)))
          (fdivD (natF img.width) (natF img.height)) bw).toNat }

/-- Exif assignment `exif[k] = v`. -/
def setExif (e : List (Nat × String)) (k : Nat) (v : String) :
    List (Nat × String) :=
  (e.filter fun p => p.1 ≠ k) ++ [(k, v)]

/-- Python `ext.lower()`. -/
def strLower (s : String) : String := String.mk (s.toList.map Char.toLower)

/-- `extension.lower().replace("e", "")` from `resize_cover` (so `"jpeg"`
becomes `"jpg"`). -/
def stripSuffix (ext : String) : String :=
  String.mk ((strLower ext).toList.filter fun c => c ≠ 'e')

/-- The extension arguments `resize_cover` accepts:
`extension not in {None, "jpg", "jpeg", "png"}` raises. -/
def allowedResizeExts : List (Option String) :=
  [Option.none, some "jpg", some "jpeg", some "png"]

/-- The temp-file suffix chosen by `resize_cover`: the (normalized)
requested extension if given, else by the image's own format
(`"png" if image.format == "PNG" else "jpg"`). -/
def resizeSf (ext : Option String) (i : PImage) : String :=
  match ext with
  | some e => stripSuffix e
  | Option.none => if i.format = "PNG" then "png" else "jpg"

/-- The output format chosen by `resize_cover`: `"PNG"`/`"JPEG"` from the
requested extension if given, else the image's own format. -/
def resizeFmt (ext : Option String) (i : PImage) : String :=
  match ext with
  | some _ => if resizeSf ext i = "png" then "PNG" else "JPEG"
  | Option.none => i.format

/-- `height = int(width / aspect_ratio)` with
`aspect_ratio = image.width / image.height`, in Python float arithmetic:
the aspect ratio is the correctly rounded double of the pixel ratio, the
int `width` is converted to a double, the division rounds again, and
`int()` truncates the resulting double toward zero. -/
def resizeHgt (w : Nat) (i : PImage) : Nat :=
  (pyInt (fdivD (natFD w) (fdivD (natF i.width) (natF i.height)))).toNat

/-- The two exif fields stamped by `resize_cover`: 305 (software) and
315 (artist). -/
def stampExif (i : PImage) : List (Nat × String) :=
  setExif (setExif i.exif 305 "Chemz v. 0.1.0") 315 "Blinzy a.k.a L4zzur"

/-- The image as written to the temp file by `resize_cover`: thumbnailed
to the box `(width, int(width / aspect))`, encoded in the chosen format,
with the stamped exif. -/
def resizedImage (w : Nat) (ext : Option String) (i : PImage) : PImage :=
  { thumbnailOp i w (resizeHgt w i) with
      format := resizeFmt ext i, exif := stampExif i }

/-- The mime type `add_cover` derives for the temp file `resize_cover`
hands it. -/
def resizeMime (ext : Option String) (i : PImage) : String :=
  if ("." ++ resizeSf ext i) = ".png" then "image/png" else "image/jpeg"

/-- `FLACTrack.resize_cover(width, extension=None)`: validate the
extension; read the cover (raising `NoCoverFoundError` when there is
none); stamp the software/author exif fields; pick the output suffix and
format (requested extension if given, else the image's own format);
compute `height = int(width / (image.width / image.height))`; shrink with
`Image.thumbnail((width, height), LANCZOS)`; write the encoded result to
`<parent>/temp_cover.<suffix>`; run `add_cover` on that temp file; unlink
the temp file.  The unlink is the last statement with no `try/finally`,
so it is skipped when `add_cover` raises. -/
def resize_coverOp (t : FLACTrack) (fs : FS) (width : Nat)
    (ext : Option String) : FLACTrack × FS × Option Err :=
  if ext ∈ allowedResizeExts then
    match read_coverOp t with
    | (t1, some e, _) => (t1, fs, some e)
    | (t1, Option.none, Option.none) =>
      (t1, fs, some (.noCoverFoundError "No cover found to resize"))
    | (t1, Option.none, some image) =>
      let temp : PathM := ⟨t1.pathP.parent, "temp_cover", "." ++ resizeSf ext image⟩
      let fs1 := fsWrite fs temp (.img (resizedImage width ext image))
      match add_coverOp t1 fs1 temp with
      | (t2, fs2, Option.none) => (t2, fsRemove fs2 temp, Option.none)
      | (t2, fs2, some e) => (t2, fs2, some e)
  else
    (t, fs, some (.wrongPictureFormatError
      "Supported extensions are 'jpg', 'jpeg', 'png' or None."))

/-- The dimensions of the image stored as the track's current (first)
picture, when there is one and its bytes decode. -/
def storedCoverDims (t : FLACTrack) : Option (Nat × Nat) :=
  match t.flacH.mem.pictures with
  | p :: _ =>
    match p.data with
    | .img i => some (i.width, i.height)
    | .raw _ => Option.none
  | [] => Option.none

theorem pySetattr_cover (t : FLACTrack) (v : AVal) :
    pySetattr t "cover" v = ({ t with coverS := some v }, Option.none) := by
  unfold pySetattr
  rw [if_pos (Or.inl (by decide))]
  simp

theorem fsWrite_self (fs : FS) (p : PathM) (b : BData) :
    fsWrite fs p b (pathKey p) = some b := by
  simp [fsWrite]

theorem add_cover_success (t : FLACTrack) (h : FLACHandle) (fs : FS)
    (p : PathM) (b : BData) (hf : t.flacS = AVal.flacV h)
    (hfl : h.faults = []) (hsx : p.ext ∈ coverExts)
    (hfile : fs (pathKey p) = some b) :
    add_coverOp t fs p =
      (t.withFlac (FLACHandle.mk
        (FLACFile.mk h.mem.tags
          [Pic.mk (if p.ext = ".png" then "image/png" else "image/jpeg") b])
        (FLACFile.mk h.mem.tags
          [Pic.mk (if p.ext = ".png" then "image/png" else "image/jpeg") b])
        []),
       fs, Option.none) := by
  have hH : t.flacH = h := flacH_of_flacS t h hf
  have hclr : flacSave (clearPictures t.flacH) =
      (FLACHandle.mk (FLACFile.mk h.mem.tags []) (FLACFile.mk h.mem.tags [])
        [], Option.none) := by
    rw [hH]
    unfold clearPictures flacSave
    simp [hfl]
  have hrm : remove_coverOp t =
      (t.withFlac (FLACHandle.mk (FLACFile.mk h.mem.tags [])
        (FLACFile.mk h.mem.tags []) []), Option.none) := by
    unfold remove_coverOp
    rw [hclr]
  unfold add_coverOp
  rw [if_pos hsx, hfile, hrm]
  show (match flacSave (addPicture
      ((t.withFlac (FLACHandle.mk (FLACFile.mk h.mem.tags [])
        (FLACFile.mk h.mem.tags []) [])).flacH)
      (Pic.mk (if p.ext = ".png" then "image/png" else "image/jpeg") b)) with
    | (h3, e) => ((t.withFlac (FLACHandle.mk (FLACFile.mk h.mem.tags [])
        (FLACFile.mk h.mem.tags []) [])).withFlac h3, fs, e)) = _
  unfold addPicture flacSave
  simp [FLACTrack.withFlac, FLACTrack.flacH]

/-- C7: `add_cover(path)` on a path whose suffix is outside
`{.jpg, .jpeg, .png}` fails with `WrongPictureFormatError` leaving track,
store and filesystem unchanged; on a path with an accepted suffix whose
file holds bytes `b` (and with no store I/O fault), it succeeds, the
in-memory picture list afterwards is exactly one picture wrapping `b`
with mime `image/png` for `.png` and `image/jpeg` otherwise, any previous
cover is gone, and the store is persisted (on-disk state equals in-memory
state). -/
theorem c7_add_cover (t : FLACTrack) (fs : FS) (p : PathM) (h : FLACHandle)
    (b : BData) (hf : t.flacS = AVal.flacV h) (hfl : h.faults = []) :
    (p.ext ∉ coverExts →
      add_coverOp t fs p = (t, fs, some (.wrongPictureFormatError
        "Supported extensions are 'jpg', 'jpeg', 'png'."))) ∧
    (p.ext ∈ coverExts → fs (pathKey p) = some b →
      (add_coverOp t fs p).2.2 = Option.none ∧
      (add_coverOp t fs p).2.1 = fs ∧
      (add_coverOp t fs p).1.flacH.mem.pictures =
        [Pic.mk (if p.ext = ".png" then "image/png" else "image/jpeg") b] ∧
      (add_coverOp t fs p).1.flacH.disk = (add_coverOp t fs p).1.flacH.mem) := by
  constructor
  · intro hnot
    unfold add_coverOp
    rw [if_neg hnot]
  · intro hsx hfile
    rw [add_cover_success t h fs p b hf hfl hsx hfile]
    exact ⟨rfl, rfl, rfl, rfl⟩

/-- Witness for `c7_add_cover`: on a track whose file system holds a
`.gif` and a `.png`, adding the `.gif` fails with
`WrongPictureFormatError` and changes nothing, while adding the `.png`
stores exactly one `image/png` picture with the file's bytes and persists
it. -/
theorem c7_add_cover_witness :
    ((PathM.mk "/music" "art" ".gif").ext ∉ coverExts ∧
      add_coverOp (sampleTrack []) (fun _ => some (BData.raw [7]))
        (PathM.mk "/music" "art" ".gif") =
        (sampleTrack [], (fun _ => some (BData.raw [7])),
         some (.wrongPictureFormatError
           "Supported extensions are 'jpg', 'jpeg', 'png'."))) ∧
    ((PathM.mk "/music" "art" ".png").ext ∈ coverExts ∧
      (add_coverOp (sampleTrack []) (fun _ => some (BData.raw [7]))
        (PathM.mk "/music" "art" ".png")).1.flacH.mem.pictures =
        [Pic.mk "image/png" (BData.raw [7])] ∧
      (add_coverOp (sampleTrack []) (fun _ => some (BData.raw [7]))
        (PathM.mk "/music" "art" ".png")).1.flacH.disk =
        (add_coverOp (sampleTrack []) (fun _ => some (BData.raw [7]))
          (PathM.mk "/music" "art" ".png")).1.flacH.mem) :=
  ⟨⟨by decide,
    (c7_add_cover (sampleTrack []) (fun _ => some (BData.raw [7]))
      (PathM.mk "/music" "art" ".gif") (sampleHandle []) (BData.raw [7])
      rfl rfl).1 (by decide)⟩,
   by decide,
   (((c7_add_cover (sampleTrack []) (fun _ => some (BData.raw [7]))
      (PathM.mk "/music" "art" ".png") (sampleHandle []) (BData.raw [7])
      rfl rfl).2 (by decide) rfl)).2.2.1,
   (((c7_add_cover (sampleTrack []) (fun _ => some (BData.raw [7]))
      (PathM.mk "/music" "art" ".png") (sampleHandle []) (BData.raw [7])
      rfl rfl).2 (by decide) rfl)).2.2.2⟩

/-- C8: `export_cover(path=None)` with no stored picture returns `None`
and writes nothing; with pictures it writes the first picture's bytes
verbatim to the destination — the given path, or
`<parent>/cover.png` when the stored mime type is `image/png` and
`<parent>/cover.jpg` otherwise — and returns that path. -/
theorem c8_export_cover (t : FLACTrack) (fs : FS) (pOpt : Option PathM) :
    (t.flacH.mem.pictures = [] →
      export_coverOp t fs pOpt = (fs, Option.none)) ∧
    (∀ pic rest, t.flacH.mem.pictures = pic :: rest →
      export_coverOp t fs pOpt =
        (fsWrite fs (pOpt.getD (PathM.mk t.pathP.parent "cover"
            ("." ++ (if pic.mime = "image/png" then "png" else "jpg"))))
          pic.data,
         some (pOpt.getD (PathM.mk t.pathP.parent "cover"
            ("." ++ (if pic.mime = "image/png" then "png" else "jpg")))))) := by
  constructor
  · intro hp
    unfold export_coverOp
    rw [hp]
  · intro pic rest hp
    unfold export_coverOp
    rw [hp]
    cases pOpt <;> rfl

/-- Witness for `c8_export_cover`: a coverless track exports nothing; a
track with a PNG cover and no explicit path writes the stored bytes to
`/music/cover.png` and returns that path. -/
theorem c8_export_cover_witness :
    ((sampleTrack []).flacH.mem.pictures = [] ∧
      export_coverOp (sampleTrack []) (fun _ => Option.none) Option.none =
        ((fun _ => Option.none), Option.none)) ∧
    ((sampleTrack [Pic.mk "image/png" (BData.raw [9])]).flacH.mem.pictures =
        [Pic.mk "image/png" (BData.raw [9])] ∧
      export_coverOp (sampleTrack [Pic.mk "image/png" (BData.raw [9])])
          (fun _ => Option.none) Option.none =
        (fsWrite (fun _ => Option.none) (PathM.mk "/music" "cover" ".png")
          (BData.raw [9]),
         some (PathM.mk "/music" "cover" ".png"))) :=
  ⟨⟨rfl,
    (c8_export_cover (sampleTrack []) (fun _ => Option.none) Option.none).1
      rfl⟩,
   rfl,
   (c8_export_cover (sampleTrack [Pic.mk "image/png" (BData.raw [9])])
      (fun _ => Option.none) Option.none).2
      (Pic.mk "image/png" (BData.raw [9])) [] rfl⟩

theorem resize_noCover_path (t : FLACTrack) (fs : FS) (w : Nat)
    (ext : Option String) (hp : t.flacH.mem.pictures = [])
    (he : ext ∈ allowedResizeExts) :
    resize_coverOp t fs w ext =
      (t, fs, some (.noCoverFoundError "No cover found to resize")) := by
  have hrc : read_coverOp t = (t, Option.none, Option.none) := by
    unfold read_coverOp
    rw [hp]
  unfold resize_coverOp
  rw [if_pos he, hrc]

/-- C9: `resize_cover(width, extension)` with a valid extension argument
(absent or one of jpg/jpeg/png) on a track whose store has no pictures
fails with `NoCoverFoundError` and leaves the track, the tag store and
the filesystem unmodified. -/
theorem c9_resize_no_cover (t : FLACTrack) (fs : FS) (w : Nat)
    (ext : Option String) (hp : t.flacH.mem.pictures = [])
    (he : ext ∈ allowedResizeExts) :
    resize_coverOp t fs w ext =
      (t, fs, some (.noCoverFoundError "No cover found to resize")) :=
  resize_noCover_path t fs w ext hp he

/-- Witness for `c9_resize_no_cover`: a coverless track with the default
extension argument. -/
theorem c9_resize_no_cover_witness :
    ((sampleTrack []).flacH.mem.pictures = [] ∧
      (Option.none : Option String) ∈ allowedResizeExts) ∧
    resize_coverOp (sampleTrack []) (fun _ => Option.none) 300 Option.none =
      (sampleTrack [], (fun _ => Option.none),
       some (.noCoverFoundError "No cover found to resize")) :=
  ⟨⟨rfl, by decide⟩,
   c9_resize_no_cover (sampleTrack []) (fun _ => Option.none) 300
     Option.none rfl (by decide)⟩

theorem resizeSf_cover_ext (ext : Option String) (i : PImage)
    (hext : ext ∈ allowedResizeExts) :
    ("." ++ resizeSf ext i) ∈ coverExts := by
  simp only [allowedResizeExts, List.mem_cons, List.not_mem_nil,
    or_false] at hext
  rcases hext with he | he | he | he
  · subst he
    unfold resizeSf
    by_cases hfmt : i.format = "PNG"
    · rw [if_pos hfmt]; decide
    · rw [if_neg hfmt]; decide
  · subst he
    show ("." ++ stripSuffix "jpg") ∈ coverExts
    decide
  · subst he
    show ("." ++ stripSuffix "jpeg") ∈ coverExts
    decide
  · subst he
    show ("." ++ stripSuffix "png") ∈ coverExts
    decide

theorem resize_success_path (t : FLACTrack) (h : FLACHandle) (fs : FS)
    (w : Nat) (ext : Option String) (m : String) (i : PImage)
    (rest : List Pic) (hf : t.flacS = AVal.flacV h)
    (hpics : h.mem.pictures = Pic.mk m (BData.img i) :: rest)
    (hfl : h.faults = []) (hext : ext ∈ allowedResizeExts) :
    resize_coverOp t fs w ext =
      (({ t with coverS := some (AVal.img i) } : FLACTrack).withFlac
        (FLACHandle.mk
          (FLACFile.mk h.mem.tags
            [Pic.mk (resizeMime ext i) (BData.img (resizedImage w ext i))])
          (FLACFile.mk h.mem.tags
            [Pic.mk (resizeMime ext i) (BData.img (resizedImage w ext i))])
          []),
       fsRemove (fsWrite fs
         (PathM.mk t.pathP.parent "temp_cover" ("." ++ resizeSf ext i))
         (BData.img (resizedImage w ext i)))
         (PathM.mk t.pathP.parent "temp_cover" ("." ++ resizeSf ext i)),
       Option.none) := by
  have hrc : read_coverOp t =
      (({ t with coverS := some (AVal.img i) } : FLACTrack),
       Option.none, some i) := by
    unfold read_coverOp
    rw [flacH_of_flacS t h hf, hpics]
    show (match pySetattr t "cover" (AVal.img i) with
      | (t', Option.none) => (t', Option.none, some i)
      | (t', some e) => (t', some e, Option.none)) = _
    rw [pySetattr_cover]
  have hadd := add_cover_success
    ({ t with coverS := some (AVal.img i) } : FLACTrack) h
    (fsWrite fs (PathM.mk t.pathP.parent "temp_cover"
      ("." ++ resizeSf ext i)) (BData.img (resizedImage w ext i)))
    (PathM.mk t.pathP.parent "temp_cover" ("." ++ resizeSf ext i))
    (BData.img (resizedImage w ext i)) hf hfl
    (resizeSf_cover_ext ext i hext) (fsWrite_self _ _ _)
  unfold resize_coverOp
  rw [if_pos hext, hrc]
  show (match add_coverOp ({ t with coverS := some (AVal.img i) } : FLACTrack)
      (fsWrite fs (PathM.mk t.pathP.parent "temp_cover"
        ("." ++ resizeSf ext i)) (BData.img (resizedImage w ext i)))
      (PathM.mk t.pathP.parent "temp_cover" ("." ++ resizeSf ext i)) with
    | (t2, fs2, Option.none) =>
      (t2, fsRemove fs2 (PathM.mk t.pathP.parent "temp_cover"
        ("." ++ resizeSf ext i)), Option.none)
    | (t2, fs2, some e) => (t2, fs2, some e)) = _
  rw [hadd]
  rfl

theorem thumbnail_noop (i : PImage) (bw bh : Nat) (h1 : i.width ≤ bw)
    (h2 : i.height ≤ bh) : thumbnailOp i bw bh = i := by
  unfold thumbnailOp
  rw [if_pos ⟨h1, h2⟩]

/-- C10 counterexample: on a 9 x 7 cover, `resize_cover(9)` — requested
width equal to the original width — stores an 8 x 6 image, not 9 x 7.  In
Python float arithmetic `9 / (9 / 7)` is just below 7, so
`int(...)` truncates the box height to 6, the box no longer contains the
image, and PIL's thumbnail fit shrinks it. -/
theorem c10_counterexample :
    resizeHgt 9 (PImage.mk 9 7 "JPEG" []) = 6 ∧
    storedCoverDims (resize_coverOp (sampleTrack [Pic.mk "image/jpeg"
        (BData.img (PImage.mk 9 7 "JPEG" []))]) (fun _ => Option.none)
        9 Option.none).1 = some (8, 6) ∧
    ((8, 6) : Nat × Nat) ≠ (9, 7) := by
  refine ⟨by decide, by decide, by decide⟩

/-- C10 (amended): the resampling step never upscales to the requested
width, but float truncation of the box height can still shrink the
image: when the requested width is at least the original width, the
stored cover keeps the original dimensions exactly when the computed
box height `int(width / (origWidth/origHeight))` is at least the
original height (the thumbnail is then a no-op); otherwise the cover is
shrunk even though the requested width would not enlarge it
(`resize_cover(9)` on 9 x 7 stores 8 x 6). -/
theorem c10_resize_never_enlarges (t : FLACTrack) (h : FLACHandle) (fs : FS)
    (w : Nat) (ext : Option String) (m : String) (i : PImage)
    (rest : List Pic) (hf : t.flacS = AVal.flacV h)
    (hpics : h.mem.pictures = Pic.mk m (BData.img i) :: rest)
    (hfl : h.faults = []) (hext : ext ∈ allowedResizeExts)
    (hup : i.width ≤ w) (hhgt : i.height ≤ resizeHgt w i) :
    storedCoverDims (resize_coverOp t fs w ext).1 =
      some (i.width, i.height) ∧
    (resize_coverOp t fs w ext).2.2 = Option.none := by
  have hth : thumbnailOp i w (resizeHgt w i) = i :=
    thumbnail_noop i w _ hup hhgt
  rw [resize_success_path t h fs w ext m i rest hf hpics hfl hext]
  exact ⟨by simp [storedCoverDims, FLACTrack.withFlac, FLACTrack.flacH,
    resizedImage, hth], rfl⟩

/-- Witness for `c10_resize_never_enlarges`: a 100 x 50 cover resized to
width 200 (the computed box height is 100, at least 50) keeps its
100 x 50 dimensions. -/
theorem c10_resize_never_enlarges_witness :
    ((sampleTrack [Pic.mk "image/jpeg" (BData.img (PImage.mk 100 50 "JPEG"
        []))]).flacS = AVal.flacV (sampleHandle [Pic.mk "image/jpeg"
        (BData.img (PImage.mk 100 50 "JPEG" []))]) ∧
      (100 : Nat) ≤ 200 ∧
      (50 : Nat) ≤ resizeHgt 200 (PImage.mk 100 50 "JPEG" [])) ∧
    storedCoverDims (resize_coverOp (sampleTrack [Pic.mk "image/jpeg"
        (BData.img (PImage.mk 100 50 "JPEG" []))]) (fun _ => Option.none)
        200 Option.none).1 = some (100, 50) :=
  ⟨⟨rfl, by decide, by decide⟩,
   (c10_resize_never_enlarges
     (sampleTrack [Pic.mk "image/jpeg" (BData.img (PImage.mk 100 50 "JPEG" []))])
     (sampleHandle [Pic.mk "image/jpeg" (BData.img (PImage.mk 100 50 "JPEG" []))])
     (fun _ => Option.none) 200 Option.none "image/jpeg"
     (PImage.mk 100 50 "JPEG" []) [] rfl rfl rfl (by decide) (by decide)
     (by decide)).1⟩

end Chemz
